import Mathlib

/-!
Verification of the data-preparation pipeline of the proximity_analysis
repository (src/components/data_prepper.py, src/data_prep.py).

The tabular logic of the pipeline (the pandas dataframe manipulation inside
PrepareData.add_site_id, check_site_id_exists, and the field-list
computations of PrepareData.__init__) is shallowly embedded below.  A
dataframe row is an association list from column names to integer values;
a dataframe carries its column list separately, mirroring pandas
`sdf.columns`.  The geometric operations delegated to the external
geometry engine (arcpy) are modelled through their documented contracts:
the output of the Identity overlay is taken as an input (a list of fragment
rows carrying the temporary key, the inherited identifier and the
spatial-join point count), and FeatureToPoint with the INSIDE option is
modelled by a polygon structure that carries its interior representative
point together with the guarantee of the engine that the point lies inside.
-/

/-- A dataframe row: an association list from column name to value.
Lookup takes the first binding, as a rectangular frame has one value per
column. -/
abbrev Row := List (String × Int)

/-- Column lookup in a row, mirroring selecting a cell of a dataframe row. -/
def Row.get (r : Row) (c : String) : Option Int :=
  (r.find? fun p => p.1 == c).map fun p => p.2

/-- The temporary key column written by add_site_id (data_prepper.py line 69:
temp_id = "temp_id", filled sequentially by the UpdateCursor loop). -/
def tid (r : Row) : Option Int := Row.get r "temp_id"

/-- The point count attached to each overlay fragment by the SpatialJoin
against the building-point layer (the Join_Count field). -/
def jc (r : Row) : Int := (Row.get r "Join_Count").getD 0

/- ### Consistency Checker (data_prepper.py lines 118-121) -/

/-- PrepareData.check_site_id_exists: the list comprehension
[f for f in in_ids if f not in site_p_sdf[site_fld].tolist()], with the
registry column materialised as a list of identifiers. -/
def check_site_id_exists (in_ids : List Int) (site_p_ids : List Int) : List Int :=
  in_ids.filter fun f => !(site_p_ids.contains f)

/- ### Field-list computation in PrepareData.__init__ (lines 233-239) -/

/-- The keep-list of essential field names excluded from deletion
(data_prepper.py lines 235-236 and 238-239). -/
def keepFields : List String :=
  ["SHAPE.AREA", "SHAPE.LEN", "SITE_ID", "OBJECTID", "Shape", "SHAPE",
   "Shape_Area", "Shape_Length"]

/-- self.site_a_fields (lines 234-236): field names listed from the primary
site layer path, minus the keep-list.  The schema listing is abstracted as
a function from layer path to field-name list. -/
def site_a_fields (listFields : String → List String) (site_a_path : String) : List String :=
  (listFields site_a_path).filter fun f => !(keepFields.contains f)

/-- self.advpd_fields (lines 237-239): the source iterates
ListFields(self.site_a_pth) - the primary site layer path - even though
this list is used as the drop-list for the advisory overlay run
(step_2, lines 163-170).  The advisory layer path is accepted as an
argument but, as in the source, never consulted. -/
def advpd_fields (listFields : String → List String)
    (site_a_path adv_pd_path : String) : List String :=
  (listFields site_a_path).filter fun f => !(keepFields.contains f)

/-- Concrete schema environment with differing primary and advisory
schemas, used to exhibit the consequences of the advpd_fields computation. -/
def exListFields : String → List String := fun p =>
  if p == "site_a" then ["SITE_ID", "PRIM_ONLY", "Shape"]
  else if p == "adv_pd" then ["SITE_ID", "ADV_ONLY", "Shape"]
  else []

/- ### Stale-field deletion in add_site_id (lines 80-85) -/

/-- The stale-field deletion loop of add_site_id (lines 81-85) applied to
the field-name list of an existing scratch feature class:
for fld in [fld_nme, out_fld_nme]: if fld in fields: DeleteField(path, fld_nme).
Note the source passes fld_nme - not the loop variable fld - to
DeleteField, so a deletion request only ever names fld_nme.  DeleteField
is modelled as removing the named field from the field list. -/
def scratchDeleteStale (fields : List String) (fld_nme out_fld_nme : String) : List String :=
  [fld_nme, out_fld_nme].foldl
    (fun fs fld => if fld ∈ fs then fs.filter fun f => !(f == fld_nme) else fs)
    fields

/- ### Module-level name resolution for step_4 (lines 189-198, 263-282) -/

/-- The names bound at the top level of components/data_prepper.py when the
module is imported: the imports of lines 1-10, the env binding target of
line 12 (the attribute assignment reads the imported name env), and the
class statement of line 15.  The body of the __main__ guard (lines
263-282) does not run on import. -/
def importTimeNames : List String :=
  ["os", "sys", "logging", "pd", "datetime", "GeoAccessor", "GeoSeriesAccessor",
   "env", "Geometry", "ListFields", "ListFeatureClasses", "ListDatasets",
   "Exists", "UpdateCursor", "Identity", "SpatialJoin", "SelectLayerByLocation",
   "SelectLayerByAttribute", "MakeFeatureLayer", "GetCount", "FeatureToPoint",
   "Append", "AddField", "DeleteField", "CreateFileGDB", "ExportFeatures",
   "PrepareData"]

/-- The additional names assigned inside the __main__ block of the module
(lines 263-274), bound only when the file runs as a script. -/
def mainBlockBindings : List (String × String) :=
  [("default_gdb", "C:\\proximity_analysis\\data\\Proximity_ON\\Default.gdb"),
   ("scratch_gdb", "C:\\proximity_analysis\\data\\Proximity_ON\\scratch.gdb"),
   ("indig_autoch_nme", "INDIG_AUTOCH_A_LC"),
   ("bld_p_nme", "BUILDING_P_PD_WGS"),
   ("wkid", "3347"),
   ("site_a_pth", "C:\\proximity_analysis\\data\\EGDMP1A.gdb\\EGD_MTNC_PD_A"),
   ("adv_pd_path", "C:\\proximity_analysis\\data\\EGDMP1A.gdb\\EGD_MTNC_ADVPD_A"),
   ("site_p_pth", "C:\\proximity_analysis\\data\\site_p.gdb\\site_p")]

/-- The module-global environment of components/data_prepper.py, as a map
from name to (string rendering of the) bound value.  Import-time names are
given placeholder values; the __main__ block values are the literals of
lines 263-274, present only when the module runs as a script. -/
def moduleGlobals (runAsMain : Bool) : List (String × String) :=
  (importTimeNames.map fun n => (n, "<module binding>")) ++
    (if runAsMain then mainBlockBindings else [])

/-- Python global-name lookup: first binding for the name, none means a
NameError on evaluation. -/
def pyLookup (globals : List (String × String)) (n : String) : Option String :=
  (globals.find? fun p => p.1 == n).map fun p => p.2

/-- Outcome of the persist call of step_4. -/
inductive Step4Result where
  | written (path : String)
  | nameError (nm : String)
deriving DecidableEq

/-- The persist step of PrepareData.step_4 (line 198):
bld_p_sdf_joined.spatial.to_featureclass(os.path.join(scratch_gdb, self.out_fc_nme)).
The path expression evaluates the free name scratch_gdb against the module
globals; if unbound the evaluation raises NameError and nothing is written. -/
def step_4_persist (globals : List (String × String)) (out_fc_nme : String) : Step4Result :=
  match pyLookup globals "scratch_gdb" with
  | some v => Step4Result.written (v ++ "\\" ++ out_fc_nme)
  | none => Step4Result.nameError "scratch_gdb"

/- ### Gap Filler: PrepareData.step_1 (lines 123-148) -/

/-- A planar point. -/
abbrev Pt := Int × Int

/-- A community polygon as seen through the geometry engine: a decidable
point-in-polygon test, together with the representative interior point the
FeatureToPoint operation of the engine with option INSIDE returns for it
and the documented guarantee of that operation that the representative lies inside
the polygon. -/
structure Polygon where
  contains : Pt → Bool
  interiorPoint : Pt
  interior_mem : contains interiorPoint = true

/-- State of the building-point layer threaded through step_1: the feature
class name (self.bld_p_nme) and its point records. -/
structure PointLayerState where
  name : String
  points : List Pt
deriving DecidableEq

/-- The switched selection of step_1 (lines 129-131): polygons of the
community layer that intersect no building point. -/
def noPointPolys (ia : List Polygon) (pts : List Pt) : List Polygon :=
  ia.filter fun poly => !(pts.any fun q => poly.contains q)

/-- PrepareData.step_1 (lines 123-148): count the polygons with no points;
if the count is positive, derive their interior representative points
(FeatureToPoint INSIDE), export the building-point layer to a working copy
renamed with the _ap suffix, and append the new points to that copy;
otherwise leave the layer untouched. -/
def step_1 (ia : List Polygon) (st : PointLayerState) : PointLayerState :=
  let noPts := noPointPolys ia st.points
  if 0 < noPts.length then
    { name := st.name ++ "_ap",
      points := st.points ++ noPts.map fun poly => poly.interiorPoint }
  else st

/- ### Identifier Propagator: PrepareData.add_site_id (lines 63-116) -/

/-- The descending point-count order of line 99: the comparison underlying
sort_values by Join_Count with ascending False. -/
def leJoinCount (a b : Row) : Bool := decide (jc b ≤ jc a)

/-- One concrete implementation of the sort of line 99, used by the
executable model resolve.  The source sorts with the pandas default kind
quicksort, whose documentation promises only a descending ordering and
explicitly no stability; the faithful description of the sort is
therefore the contract sortValuesOutput below, and theorems about the
tie-break quantify over that contract rather than over this particular
implementation. -/
def sortByJoinCountDesc (rows : List Row) : List Row :=
  rows.mergeSort leJoinCount

/-- pandas drop_duplicates of line 99, subset temp_id keeping the first: keep
the first row for each temporary-key value, in order. -/
def drop_duplicates_keep_first (rows : List Row) : List Row :=
  match rows with
  | [] => []
  | r :: rs =>
      r :: drop_duplicates_keep_first (rs.filter fun r2 => !(tid r2 == tid r))
termination_by rows.length
decreasing_by
  simp only [List.length_cons]
  exact Nat.lt_succ_of_le (List.length_filter_le _ _)

/-- The fragment-resolution step of add_site_id (line 99): sort the
spatially joined overlay fragments by descending point count, then keep
the first fragment per temporary key. -/
def resolve (rows : List Row) : List Row :=
  drop_duplicates_keep_first (sortByJoinCountDesc rows)

/-- The group of overlay fragments carrying a given temporary key: all
fragments a single original community row was exploded into. -/
def fragGroup (t : Int) (rows : List Row) : List Row :=
  rows.filter fun r => decide (tid r = some t)

/-- Whether the point count of a fragment is maximal within its group. -/
def maxInGroup (t : Int) (rows : List Row) (r : Row) : Bool :=
  (fragGroup t rows).all fun r2 => decide (jc r2 ≤ jc r)

/-- Modelled from the claim wording, for comparison with resolve: among
the fragments carrying the given temporary key, the first one in original
order whose point count is maximal in that group. -/
def specSelect (t : Int) (rows : List Row) : Option Row :=
  (fragGroup t rows).find? (maxInGroup t rows)

/-- Column rename of line 106: sdf.rename(columns=(fld_nme to out_fld_nme)). -/
def renameKey (fld out : String) (r : Row) : Row :=
  r.map fun p => if p.1 == fld then (out, p.2) else p

/-- Column projection of line 113: sdf[[link_fld, out_fld_nme]]. -/
def projectTo (ks : List String) (r : Row) : Row :=
  r.filter fun p => decide (p.1 ∈ ks)

/-- Key comparison of the pandas merge of lines 113-114: two rows match
when their join-key cells are equal (pandas merge pairs equal key values,
including missing with missing). -/
def keyMatch (lr rr : Row) (k : String) : Bool :=
  decide (Row.get rr k = Row.get lr k)

/-- The pandas merge of lines 113-114: orig_sdf.merge(sdf[[link_fld,
out_fld_nme]] on link_fld, with the pandas default inner join: each left
row is paired with every right row whose key matches; left rows without a
match produce nothing. -/
def pdMerge (left right : List Row) (k : String) : List Row :=
  match left with
  | [] => []
  | lr :: ls =>
      ((right.filter fun rr => keyMatch lr rr k).map fun rr => lr ++ rr) ++
        pdMerge ls right k

/-- A dataframe: its column list (pandas sdf.columns) and its rows. -/
structure DataFrame where
  cols : List String
  rows : List Row

/-- The post-overlay portion of PrepareData.add_site_id (lines 95-116),
taking as input the dataframe read from the spatially joined overlay
result (line 95) and the working table of the caller: resolve fragment
multiplicity (line 99); abort reporting the columns if the identifier
field is absent (lines 101-104, sys.exit modelled as an error value);
rename the identifier column (line 106); abort likewise if the output
name is absent (lines 108-110); finally inner-merge the (link field,
output field) projection onto the working table (lines 113-114). -/
def add_site_id (sdf2 : DataFrame) (orig_sdf : List Row)
    (fld_nme out_fld_nme link_fld : String) : Except (List String) (List Row) :=
  let sdf : DataFrame := { sdf2 with rows := resolve sdf2.rows }
  if fld_nme ∈ sdf.cols then
    let renamed : DataFrame :=
      { cols := sdf.cols.map fun c => if c == fld_nme then out_fld_nme else c,
        rows := sdf.rows.map (renameKey fld_nme out_fld_nme) }
    if out_fld_nme ∈ renamed.cols then
      Except.ok (pdMerge orig_sdf
        (renamed.rows.map (projectTo [link_fld, out_fld_nme])) link_fld)
    else Except.error renamed.cols
  else Except.error sdf.cols

/- ### Helper lemmas -/

/-- Lookup in a row built by cons. -/
theorem Row.get_cons (q : String × Int) (l : List (String × Int)) (c : String) :
    Row.get (q :: l) c = if q.1 == c then some q.2 else Row.get l c := by
  unfold Row.get
  rw [List.find?_cons]
  cases h : (q.1 == c) <;> simp [h]

/-- Filtering by a predicate implied by the search predicate does not
change the result of find?. -/
theorem find?_filter_imp {α : Type} (l : List α) (p q : α → Bool)
    (h : ∀ x, p x = true → q x = true) : (l.filter q).find? p = l.find? p := by
  induction l with
  | nil => rfl
  | cons x xs ih =>
    by_cases hp : p x = true
    · rw [List.filter_cons_of_pos (h x hp), List.find?_cons_of_pos _ hp,
        List.find?_cons_of_pos _ hp]
    · by_cases hq : q x = true
      · rw [List.filter_cons_of_pos hq, List.find?_cons_of_neg _ hp,
          List.find?_cons_of_neg _ hp, ih]
      · rw [List.filter_cons_of_neg (by simp [hq]), List.find?_cons_of_neg _ hp, ih]

/-- The deduplicated list is a sublist of the input. -/
theorem drop_duplicates_sublist (l : List Row) :
    List.Sublist (drop_duplicates_keep_first l) l := by
  induction l using drop_duplicates_keep_first.induct with
  | case1 => simp [drop_duplicates_keep_first]
  | case2 r rs ih =>
    rw [drop_duplicates_keep_first]
    exact (ih.trans (List.filter_sublist _)).cons₂ r

/-- Members of the deduplicated list are members of the input. -/
theorem mem_drop_duplicates {l : List Row} {x : Row}
    (h : x ∈ drop_duplicates_keep_first l) : x ∈ l :=
  (drop_duplicates_sublist l).subset h

/-- After deduplication the temporary keys are pairwise distinct. -/
theorem drop_duplicates_pairwise (l : List Row) :
    (drop_duplicates_keep_first l).Pairwise fun a b => tid a ≠ tid b := by
  induction l using drop_duplicates_keep_first.induct with
  | case1 => simp [drop_duplicates_keep_first]
  | case2 r rs ih =>
    rw [drop_duplicates_keep_first]
    refine List.pairwise_cons.mpr ⟨?_, ih⟩
    intro b hb
    have hbr : ¬(tid b = tid r) := by
      simpa using List.of_mem_filter (mem_drop_duplicates hb)
    exact fun he => hbr he.symm

/-- Deduplication keeps the first row per temporary key, so searching for
a temporary key commutes with it. -/
theorem drop_duplicates_find?_tid (l : List Row) (t : Int) :
    (drop_duplicates_keep_first l).find? (fun r => decide (tid r = some t)) =
      l.find? (fun r => decide (tid r = some t)) := by
  induction l using drop_duplicates_keep_first.induct with
  | case1 => simp [drop_duplicates_keep_first]
  | case2 r rs ih =>
    rw [drop_duplicates_keep_first]
    by_cases hr : tid r = some t
    · rw [List.find?_cons_of_pos _ (by simp [hr]), List.find?_cons_of_pos _ (by simp [hr])]
    · rw [List.find?_cons_of_neg _ (by simp [hr]), List.find?_cons_of_neg _ (by simp [hr]),
        ih, find?_filter_imp]
      intro x hx
      simp only [decide_eq_true_eq] at hx
      simp only [Bool.not_eq_true', beq_eq_false_iff_ne, ne_eq]
      rw [hx]
      exact fun he => hr he.symm

/-- In a list whose elements pairwise never both satisfy p, at most one
element satisfies p. -/
theorem filter_length_le_one {α : Type} {l : List α} {p : α → Bool}
    (h : l.Pairwise fun a b => ¬(p a = true ∧ p b = true)) :
    (l.filter p).length ≤ 1 := by
  induction l with
  | nil => simp
  | cons x xs ih =>
    rcases List.pairwise_cons.mp h with ⟨hx, hxs⟩
    by_cases hp : p x = true
    · have hnil : xs.filter p = [] := by
        apply List.filter_eq_nil_iff.mpr
        intro a ha hpa
        exact hx a ha ⟨hp, hpa⟩
      rw [List.filter_cons_of_pos hp, hnil]
      exact Nat.le_refl 1
    · rw [List.filter_cons_of_neg (by simp [hp])]
      exact ih hxs

/-- The merge result has one row per matching pair, grouped by left row. -/
theorem pdMerge_length (L R : List Row) (k : String) :
    (pdMerge L R k).length =
      (L.map fun lr => (R.filter fun rr => keyMatch lr rr k).length).sum := by
  induction L with
  | nil => rfl
  | cons lr ls ih => simp [pdMerge, ih]

/-- Projection to a column list preserves lookup of a kept column. -/
theorem get_projectTo {ks : List String} {k : String} (hk : k ∈ ks) (r : Row) :
    Row.get (projectTo ks r) k = Row.get r k := by
  unfold Row.get projectTo
  rw [find?_filter_imp]
  intro x hx
  simp only [beq_iff_eq] at hx
  simp only [decide_eq_true_eq]
  rw [hx]
  exact hk

/-- Renaming one column preserves lookup of any other column. -/
theorem get_renameKey {fld out c : String} (h1 : c ≠ fld) (h2 : c ≠ out) (r : Row) :
    Row.get (renameKey fld out r) c = Row.get r c := by
  induction r with
  | nil => rfl
  | cons p ps ih =>
    have hout : (out == c) = false := beq_eq_false_iff_ne.mpr fun he => h2 he.symm
    have hfld : (fld == c) = false := beq_eq_false_iff_ne.mpr fun he => h1 he.symm
    simp only [renameKey, List.map_cons] at ih ⊢
    by_cases hp : (p.1 == fld) = true
    · rw [if_pos hp, Row.get_cons, Row.get_cons]
      have hp1 : p.1 = fld := beq_iff_eq.mp hp
      rw [hp1, hfld, hout, if_neg (by simp), if_neg (by simp)]
      exact ih
    · rw [if_neg (by simp [hp]), Row.get_cons, Row.get_cons]
      by_cases hc : (p.1 == c) = true
      · rw [if_pos hc, if_pos hc]
      · rw [if_neg (by simp [hc]), if_neg (by simp [hc])]
        exact ih

/-- A list of naturals each at most one sums to at most its length. -/
theorem sum_le_length {l : List Nat} (h : ∀ x ∈ l, x ≤ 1) : l.sum ≤ l.length := by
  induction l with
  | nil => simp
  | cons x xs ih =>
    simp only [List.sum_cons, List.length_cons]
    have h1 := h x (List.mem_cons_self _ _)
    have h2 := ih fun y hy => h y (List.mem_cons_of_mem _ hy)
    omega

/-- The descending point-count order is transitive. -/
theorem leJoinCount_trans : ∀ (a b c : Row),
    leJoinCount a b → leJoinCount b c → leJoinCount a c := by
  intro a b c hab hbc
  simp only [leJoinCount, decide_eq_true_eq] at *
  exact le_trans hbc hab

/-- The descending point-count order is total. -/
theorem leJoinCount_total : ∀ (a b : Row), leJoinCount a b || leJoinCount b a := by
  intro a b
  simp only [leJoinCount, Bool.or_eq_true, decide_eq_true_eq]
  exact le_total (jc b) (jc a)

/- ### Example inputs -/

/-- Overlay fragments of a single community row exploded into three parts
with point counts 3, 7 and 2 and distinct inherited identifiers. -/
def exFragments : List Row :=
  [[("temp_id", 1), ("PLACE_ID", 10), ("PD_Site_ID", 11), ("Join_Count", 3)],
   [("temp_id", 1), ("PLACE_ID", 10), ("PD_Site_ID", 22), ("Join_Count", 7)],
   [("temp_id", 1), ("PLACE_ID", 10), ("PD_Site_ID", 33), ("Join_Count", 2)]]

/-- An original community working-table row with the join key of the
fragments above. -/
def exOrigRow : Row := [("PLACE_ID", 10), ("AREA", 5)]

/-- A one-row working table. -/
def exOrig : List Row := [exOrigRow]

/-- An overlay-result dataframe whose columns lack the expected identifier
field PD_Site_ID. -/
def exBadDF : DataFrame :=
  { cols := ["temp_id", "PLACE_ID", "Join_Count"],
    rows := [[("temp_id", 1), ("PLACE_ID", 10), ("Join_Count", 3)]] }

/-- A community polygon containing no building point of exPointLayer. -/
def exGapPoly : Polygon :=
  { contains := fun p => decide (0 ≤ p.1 ∧ p.1 ≤ 2 ∧ 0 ≤ p.2 ∧ p.2 ≤ 2),
    interiorPoint := (1, 1),
    interior_mem := by decide }

/-- A community polygon containing the building point of exPointLayer. -/
def exCoveredPoly : Polygon :=
  { contains := fun p => decide (10 ≤ p.1 ∧ p.1 ≤ 12 ∧ 0 ≤ p.2 ∧ p.2 ≤ 2),
    interiorPoint := (11, 1),
    interior_mem := by decide }

/-- A building-point layer with one point, inside exCoveredPoly only. -/
def exPointLayer : PointLayerState := { name := "BUILDING_P", points := [(11, 1)] }

/- ### Claim theorems -/

/-- Claim C2: the resolved mapping has pairwise-distinct temporary keys;
when the join key identifies original rows (fragments with equal join key
carry an equal temporary key) each working-table row matches at most one
resolved row, so the merged table carries at most one resolved identifier
per original community row and has at most one row per working-table row. -/
theorem add_site_id_at_most_one (rows orig : List Row) (fld out link : String)
    (h1 : link ≠ fld) (h2 : link ≠ out)
    (hcoh : ∀ r1 ∈ rows, ∀ r2 ∈ rows,
      Row.get r1 link = Row.get r2 link → tid r1 = tid r2) :
    ((resolve rows).Pairwise fun a b => tid a ≠ tid b) ∧
    (∀ lr ∈ orig,
      (((resolve rows).map fun r => projectTo [link, out] (renameKey fld out r)).filter
        (fun rr => keyMatch lr rr link)).length ≤ 1) ∧
    (pdMerge orig
        ((resolve rows).map fun r => projectTo [link, out] (renameKey fld out r)) link).length
      ≤ orig.length := by
  have hpair : (resolve rows).Pairwise fun a b => tid a ≠ tid b :=
    drop_duplicates_pairwise _
  have hmem : ∀ x ∈ resolve rows, x ∈ rows := by
    intro x hx
    exact (List.mergeSort_perm rows leJoinCount).subset (mem_drop_duplicates hx)
  have hget : ∀ r : Row,
      Row.get (projectTo [link, out] (renameKey fld out r)) link = Row.get r link := by
    intro r
    rw [get_projectTo (List.mem_cons_self _ _), get_renameKey h1 h2]
  have hperRow : ∀ lr ∈ orig,
      (((resolve rows).map fun r => projectTo [link, out] (renameKey fld out r)).filter
        (fun rr => keyMatch lr rr link)).length ≤ 1 := by
    intro lr _
    rw [List.filter_map, List.length_map]
    apply filter_length_le_one
    apply List.Pairwise.imp_of_mem ?_ hpair
    intro a b ha hb hne hcontra
    obtain ⟨hca, hcb⟩ := hcontra
    simp only [Function.comp, keyMatch, decide_eq_true_eq] at hca hcb
    rw [hget a] at hca
    rw [hget b] at hcb
    exact hne (hcoh a (hmem a ha) b (hmem b hb) (hca.trans hcb.symm))
  refine ⟨hpair, hperRow, ?_⟩
  rw [pdMerge_length]
  have hbound : ∀ x ∈ orig.map fun lr =>
      (((resolve rows).map fun r => projectTo [link, out] (renameKey fld out r)).filter
        (fun rr => keyMatch lr rr link)).length, x ≤ 1 := by
    intro x hx
    obtain ⟨lr, hlr, hxe⟩ := List.mem_map.mp hx
    rw [← hxe]
    exact hperRow lr hlr
  calc (orig.map fun lr =>
      (((resolve rows).map fun r => projectTo [link, out] (renameKey fld out r)).filter
        (fun rr => keyMatch lr rr link)).length).sum
      ≤ (orig.map fun lr =>
      (((resolve rows).map fun r => projectTo [link, out] (renameKey fld out r)).filter
        (fun rr => keyMatch lr rr link)).length).length := sum_le_length hbound
    _ = orig.length := List.length_map _ _

/-- Witness for C2 at the concrete fragments and working table. -/
theorem add_site_id_at_most_one_witness :
    ((resolve exFragments).Pairwise fun a b => tid a ≠ tid b) ∧
    (∀ lr ∈ exOrig,
      (((resolve exFragments).map fun r =>
        projectTo ["PLACE_ID", "AUTO_PD_SITE_ID"] (renameKey "PD_Site_ID" "AUTO_PD_SITE_ID" r)).filter
        (fun rr => keyMatch lr rr "PLACE_ID")).length ≤ 1) ∧
    (pdMerge exOrig
        ((exFragments |> resolve).map fun r =>
          projectTo ["PLACE_ID", "AUTO_PD_SITE_ID"] (renameKey "PD_Site_ID" "AUTO_PD_SITE_ID" r))
        "PLACE_ID").length ≤ exOrig.length :=
  add_site_id_at_most_one exFragments exOrig "PD_Site_ID" "AUTO_PD_SITE_ID" "PLACE_ID"
    (by decide) (by decide) (by decide)

/-- Counterexample to claim C3 as stated: the merge of lines 113-114 is a
pandas inner join, so a working-table row whose join key has no match in
the resolved mapping is dropped, not preserved. -/
theorem pdMerge_not_left_preserving :
    ¬ ∀ (left right : List Row) (k : String), ∀ lr ∈ left,
        ∃ mr ∈ pdMerge left right k, ∃ rest, mr = lr ++ rest := by
  intro h
  obtain ⟨mr, hmr, -⟩ :=
    h [[("PLACE_ID", 1)]] [] "PLACE_ID" [("PLACE_ID", 1)] (List.mem_singleton.mpr rfl)
  simp [pdMerge] at hmr

/-- Claim C3 amended: the merge back onto the working table is an inner
join keyed on the original join key: the result has exactly one row per
matching (working row, resolved row) pair, every working row with at
least one key match is preserved as a prefix of some result row, and
working rows without a match contribute no row. -/
theorem pdMerge_inner_join (left right : List Row) (k : String) :
    (pdMerge left right k).length =
      (left.map fun lr => (right.filter fun rr => keyMatch lr rr k).length).sum ∧
    ∀ lr ∈ left, (∃ rr ∈ right, keyMatch lr rr k = true) →
      ∃ mr ∈ pdMerge left right k, ∃ rest, mr = lr ++ rest := by
  refine ⟨pdMerge_length left right k, ?_⟩
  intro lr hlr hex
  obtain ⟨rr, hrr, hkm⟩ := hex
  induction left with
  | nil => cases hlr
  | cons l0 ls ih =>
    rcases List.mem_cons.mp hlr with he | hm
    · subst he
      refine ⟨lr ++ rr, ?_, rr, rfl⟩
      simp only [pdMerge]
      exact List.mem_append_left _
        (List.mem_map_of_mem _ (List.mem_filter.mpr ⟨hrr, hkm⟩))
    · obtain ⟨mr, hmr, rest, hrest⟩ := ih hm
      exact ⟨mr, by simp only [pdMerge]; exact List.mem_append_right _ hmr, rest, hrest⟩

/-- Witness for C3 amended: a working row with one match is preserved. -/
theorem pdMerge_inner_join_witness :
    ∃ mr ∈ pdMerge exOrig [[("PLACE_ID", 10), ("AUTO_PD_SITE_ID", 22)]] "PLACE_ID",
      ∃ rest, mr = exOrigRow ++ rest :=
  (pdMerge_inner_join exOrig [[("PLACE_ID", 10), ("AUTO_PD_SITE_ID", 22)]] "PLACE_ID").2
    exOrigRow (by decide)
    ⟨[("PLACE_ID", 10), ("AUTO_PD_SITE_ID", 22)], by decide, by decide⟩

/-- Claim C4: constructed through the import path (module not run as a
script), the module globals of data_prepper.py do not bind scratch_gdb -
it is bound only in the __main__ block - so the persist expression of
step_4 resolves to a NameError and the output feature class is never
written. -/
theorem step_4_import_name_error (out_fc_nme : String) :
    pyLookup (moduleGlobals false) "scratch_gdb" = none ∧
    (pyLookup (moduleGlobals true) "scratch_gdb").isSome = true ∧
    step_4_persist (moduleGlobals false) out_fc_nme = Step4Result.nameError "scratch_gdb" ∧
    ∀ p, step_4_persist (moduleGlobals false) out_fc_nme ≠ Step4Result.written p := by
  have h0 : pyLookup (moduleGlobals false) "scratch_gdb" = none := by decide
  have h1 : (pyLookup (moduleGlobals true) "scratch_gdb").isSome = true := by decide
  have h2 : step_4_persist (moduleGlobals false) out_fc_nme =
      Step4Result.nameError "scratch_gdb" := by
    unfold step_4_persist
    rw [h0]
  refine ⟨h0, h1, h2, ?_⟩
  intro p hp
  rw [h2] at hp
  cases hp

/-- Claim C5: when the expected identifier field is absent from the
columns of the overlay result, add_site_id reports the available columns and
terminates (modelled as an error value carrying the reported columns)
without reaching the merge: no ok result is produced. -/
theorem add_site_id_schema_abort (sdf : DataFrame) (orig : List Row)
    (fld out link : String) (h : fld ∉ sdf.cols) :
    add_site_id sdf orig fld out link = Except.error sdf.cols ∧
    ∀ res, add_site_id sdf orig fld out link ≠ Except.ok res := by
  have he : add_site_id sdf orig fld out link = Except.error sdf.cols := by
    simp only [add_site_id]
    rw [if_neg h]
  refine ⟨he, ?_⟩
  intro res hres
  rw [he] at hres
  cases hres

/-- Witness for C5 at a dataframe lacking the PD_Site_ID column. -/
theorem add_site_id_schema_abort_witness :
    add_site_id exBadDF exOrig "PD_Site_ID" "AUTO_PD_SITE_ID" "PLACE_ID" =
      Except.error exBadDF.cols ∧
    ∀ res, add_site_id exBadDF exOrig "PD_Site_ID" "AUTO_PD_SITE_ID" "PLACE_ID" ≠
      Except.ok res :=
  add_site_id_schema_abort exBadDF exOrig "PD_Site_ID" "AUTO_PD_SITE_ID" "PLACE_ID" (by decide)

/-- Claim C6: when exactly N community polygons contain no building point,
step_1 grows the point layer by exactly N points, and each synthesized
point is the interior representative of its source polygon, inside that
polygon by the FeatureToPoint INSIDE contract. -/
theorem step_1_gap_fill (ia : List Polygon) (st : PointLayerState) (N : Nat)
    (hN : (noPointPolys ia st.points).length = N) :
    (step_1 ia st).points.length = st.points.length + N ∧
    ∀ poly ∈ noPointPolys ia st.points, poly.contains poly.interiorPoint = true := by
  constructor
  · simp only [step_1]
    split
    · simp [hN]
    · next hlen =>
      have hz : N = 0 := by omega
      simp [hz]
  · intro poly _
    exact poly.interior_mem

/-- Witness for C6: two polygons, one without a point; the layer grows by
one and the new point is inside its polygon. -/
theorem step_1_gap_fill_witness :
    (noPointPolys [exGapPoly, exCoveredPoly] exPointLayer.points).length = 1 ∧
    ((step_1 [exGapPoly, exCoveredPoly] exPointLayer).points.length =
        exPointLayer.points.length + 1 ∧
      ∀ poly ∈ noPointPolys [exGapPoly, exCoveredPoly] exPointLayer.points,
        poly.contains poly.interiorPoint = true) :=
  ⟨by decide, step_1_gap_fill [exGapPoly, exCoveredPoly] exPointLayer 1 (by decide)⟩

/-- Claim C7: step_1 never alters an existing building point: the
original points are an unchanged prefix of the result; when no polygon
lacks a point the layer state is returned untouched (same name, same
points); when some polygon lacks a point the appends go to the renamed
working copy, not the original layer. -/
theorem step_1_frame (ia : List Polygon) (st : PointLayerState) :
    (step_1 ia st).points.take st.points.length = st.points ∧
    (noPointPolys ia st.points = [] → step_1 ia st = st) ∧
    (noPointPolys ia st.points ≠ [] → (step_1 ia st).name = st.name ++ "_ap") := by
  refine ⟨?_, ?_, ?_⟩
  · simp only [step_1]
    split
    · exact List.take_left _ _
    · exact List.take_length st.points
  · intro h
    simp [step_1, h]
  · intro h
    simp [step_1, List.length_pos.mpr h]

/-- Witness for C7 at a layer with one gap polygon: the original point
survives as prefix and the append happened on the renamed copy. -/
theorem step_1_frame_witness :
    (step_1 [exGapPoly, exCoveredPoly] exPointLayer).points.take
        exPointLayer.points.length = exPointLayer.points ∧
    (step_1 [exGapPoly, exCoveredPoly] exPointLayer).name =
      exPointLayer.name ++ "_ap" :=
  ⟨(step_1_frame [exGapPoly, exCoveredPoly] exPointLayer).1,
   (step_1_frame [exGapPoly, exCoveredPoly] exPointLayer).2.2
     (List.length_pos.mp (by decide))⟩

/-- Claim C8, evaluated at the failing input: a scratch feature class
whose fields contain the stale output field AUTO_PD_SITE_ID (and not the
identifier field PD_Site_ID).  The deletion loop of lines 81-85 passes
fld_nme to DeleteField in both iterations, so the stale output field
survives, contradicting the claim that both the identifier field and the
output field name are deleted before the overlay. -/
theorem stale_out_field_survives :
    scratchDeleteStale ["AUTO_PD_SITE_ID", "temp_id"] "PD_Site_ID" "AUTO_PD_SITE_ID" =
      ["AUTO_PD_SITE_ID", "temp_id"] ∧
    "AUTO_PD_SITE_ID" ∈
      scratchDeleteStale ["AUTO_PD_SITE_ID", "temp_id"] "PD_Site_ID" "AUTO_PD_SITE_ID" := by
  constructor
  · decide
  · decide

/-- Claim C9: check_site_id_exists returns exactly the identifiers of the
input list absent from the registry column - the set difference - and on
the inputs of the claim it reports exactly the list with 102. -/
theorem check_site_id_exists_set_difference (in_ids reg : List Int) :
    (∀ x : Int, x ∈ check_site_id_exists in_ids reg ↔ (x ∈ in_ids ∧ x ∉ reg)) ∧
    check_site_id_exists [101, 102, 103] [101, 103] = [102] := by
  constructor
  · intro x
    simp [check_site_id_exists, List.mem_filter]
  · decide

/-- Claim C10: the drop-list for the advisory overlay run is computed
from the schema of the primary site layer, never of the advisory layer: it
coincides with site_a_fields for every schema environment; consequently
in a schema environment where the layers differ, the advisory-only field
survives (is not requested for deletion) while the primary-only field is
requested for deletion. -/
theorem advpd_fields_uses_primary_schema (lf : String → List String) (sa adv : String) :
    advpd_fields lf sa adv = site_a_fields lf sa ∧
    ("ADV_ONLY" ∈ exListFields "adv_pd" ∧ "ADV_ONLY" ∉ exListFields "site_a") ∧
    "ADV_ONLY" ∉ advpd_fields exListFields "site_a" "adv_pd" ∧
    "PRIM_ONLY" ∈ advpd_fields exListFields "site_a" "adv_pd" := by
  refine ⟨rfl, by decide, by decide, by decide⟩

/-- Witness for C4 at the default output feature-class name. -/
theorem step_4_import_name_error_witness :
    step_4_persist (moduleGlobals false) "bld_p_processed" =
      Step4Result.nameError "scratch_gdb" :=
  (step_4_import_name_error "bld_p_processed").2.2.1

/-- Witness for C9 at the inputs named by the claim. -/
theorem check_site_id_exists_set_difference_witness :
    check_site_id_exists [101, 102, 103] [101, 103] = [102] :=
  (check_site_id_exists_set_difference [101, 102, 103] [101, 103]).2

/-- Witness for C10 at the concrete schema environment. -/
theorem advpd_fields_uses_primary_schema_witness :
    advpd_fields exListFields "site_a" "adv_pd" =
      site_a_fields exListFields "site_a" :=
  (advpd_fields_uses_primary_schema exListFields "site_a" "adv_pd").1

/- ### Contract-faithful treatment of the line-99 sort and the tie-break -/

/-- The documented contract of the sort of line 99 (sort_values by
Join_Count with ascending False and the pandas default kind, quicksort):
the output is some permutation of the input in descending point-count
order.  The pandas documentation lists only mergesort and stable as
stable kinds, so stability is deliberately not part of this contract;
any output satisfying it is a permitted behaviour of the program. -/
def sortValuesOutput (rows s : List Row) : Prop :=
  s.Perm rows ∧ s.Pairwise fun a b => leJoinCount a b = true

/-- The executable stand-in sortByJoinCountDesc is one permitted
behaviour of the sort contract. -/
theorem sortByJoinCountDesc_valid (rows : List Row) :
    sortValuesOutput rows (sortByJoinCountDesc rows) :=
  ⟨List.mergeSort_perm rows leJoinCount,
   List.sorted_mergeSort leJoinCount_trans leJoinCount_total rows⟩

/-- In any permitted sort output, the first row satisfying p is a p-row
of the input of maximal point count among the p-rows.  Which of several
tied-max p-rows comes first depends on the particular permutation, so
nothing beyond maximality is concluded here. -/
theorem find?_sorted_desc_max (rows s : List Row) (p : Row → Bool)
    (hperm : s.Perm rows)
    (hsort : s.Pairwise fun a b => leJoinCount a b = true)
    (hex : ∃ x, x ∈ rows ∧ p x = true) :
    ∃ b, s.find? p = some b ∧ b ∈ rows ∧ p b = true ∧
      ((rows.filter p).all fun r2 => decide (jc r2 ≤ jc b)) = true := by
  obtain ⟨x0, hx0, hpx0⟩ := hex
  have hx0s : x0 ∈ s := hperm.mem_iff.mpr hx0
  have hisSome : (s.find? p).isSome := List.find?_isSome.mpr ⟨x0, hx0s, hpx0⟩
  obtain ⟨b, hb⟩ := Option.isSome_iff_exists.mp hisSome
  obtain ⟨hpb, s1, s2, hsplit, hs1⟩ := List.find?_eq_some.mp hb
  have hbmem : b ∈ rows := by
    apply hperm.subset
    rw [hsplit]
    exact List.mem_append_right _ (List.mem_cons_self _ _)
  have hAb : ((rows.filter p).all fun r2 => decide (jc r2 ≤ jc b)) = true := by
    rw [List.all_eq_true]
    intro r2 hr2
    have hr2p : p r2 = true := List.of_mem_filter hr2
    have hr2s : r2 ∈ s := hperm.mem_iff.mpr (List.mem_of_mem_filter hr2)
    rw [hsplit] at hr2s
    rcases List.mem_append.mp hr2s with h1 | h2
    · have hcontra := hs1 r2 h1
      rw [hr2p] at hcontra
      simp at hcontra
    · rcases List.mem_cons.mp h2 with he | h3
      · subst he
        simp
      · have hsub : List.Sublist (b :: s2) s := by
          rw [hsplit]
          exact List.sublist_append_right s1 (b :: s2)
        have hp2 := List.Pairwise.sublist hsub hsort
        have hle := (List.pairwise_cons.mp hp2).1 r2 h3
        simp only [leJoinCount, decide_eq_true_eq] at hle
        exact decide_eq_true hle
  exact ⟨b, hb, hbmem, hpb, hAb⟩

/-- Fragments of one community row with two parts tied at the maximum
point count 7 and a third part below it. -/
def exTieFragments : List Row :=
  [[("temp_id", 1), ("PD_Site_ID", 11), ("Join_Count", 7)],
   [("temp_id", 1), ("PD_Site_ID", 22), ("Join_Count", 7)],
   [("temp_id", 1), ("PD_Site_ID", 33), ("Join_Count", 2)]]

/-- A sort output permitted by the contract of sortValuesOutput in which
the two tied-max fragments appear in the opposite of their original
order, as an unstable quicksort may produce. -/
def exTieSwapped : List Row :=
  [[("temp_id", 1), ("PD_Site_ID", 22), ("Join_Count", 7)],
   [("temp_id", 1), ("PD_Site_ID", 11), ("Join_Count", 7)],
   [("temp_id", 1), ("PD_Site_ID", 33), ("Join_Count", 2)]]

/-- A descending ordering of exFragments, a permitted output of the sort
contract for them. -/
def exFragmentsSorted : List Row :=
  [[("temp_id", 1), ("PLACE_ID", 10), ("PD_Site_ID", 22), ("Join_Count", 7)],
   [("temp_id", 1), ("PLACE_ID", 10), ("PD_Site_ID", 11), ("Join_Count", 3)],
   [("temp_id", 1), ("PLACE_ID", 10), ("PD_Site_ID", 33), ("Join_Count", 2)]]

/-- Counterexample to claim C1 as stated: among fragments tied at the
maximum point count the selection is not the first-occurrence one.  The
sort of line 99 promises only a descending permutation (the pandas
default kind is not stable), and for a permitted sort output in which
the two tied-max fragments of exTieFragments are swapped, the kept
fragment carries identifier 22 while the first occurrence carries 11. -/
theorem first_occurrence_not_guaranteed :
    ¬ ∀ (rows s : List Row) (t : Int), sortValuesOutput rows s →
        1 < (fragGroup t rows).length →
        (drop_duplicates_keep_first s).find? (fun x => decide (tid x = some t)) =
          specSelect t rows := by
  intro hclaim
  have hvalid : sortValuesOutput exTieFragments exTieSwapped := by
    constructor
    · decide
    · decide
  have hres := hclaim exTieFragments exTieSwapped 1 hvalid (by decide)
  have hfil : ([[("temp_id", 1), ("PD_Site_ID", 11), ("Join_Count", 7)],
        [("temp_id", 1), ("PD_Site_ID", 33), ("Join_Count", 2)]].filter
      fun r2 =>
        !(tid r2 == tid [("temp_id", 1), ("PD_Site_ID", 22), ("Join_Count", 7)])) =
      ([] : List Row) := by decide
  have hdd : drop_duplicates_keep_first exTieSwapped =
      [[("temp_id", 1), ("PD_Site_ID", 22), ("Join_Count", 7)]] := by
    simp only [exTieSwapped]
    rw [drop_duplicates_keep_first, hfil, drop_duplicates_keep_first]
  rw [hdd] at hres
  have hR : specSelect 1 exTieFragments =
      some [("temp_id", 1), ("PD_Site_ID", 11), ("Join_Count", 7)] := by decide
  rw [hR] at hres
  exact absurd hres (by decide)

/-- Claim C1 amended: for a community row whose overlay produced more
than one fragment, the resolution step of add_site_id (line 99: sort by
descending point count, keep the first row per temporary key) selects a
fragment of that row with the maximum building-point count under every
sort output the sort contract permits; the choice among fragments tied
at the maximum is fixed by the particular sort output and is not
guaranteed to be the first occurrence. -/
theorem add_site_id_max_count_any_sort (rows s : List Row) (t : Int)
    (hs : sortValuesOutput rows s) (h : 1 < (fragGroup t rows).length) :
    ∃ r, (drop_duplicates_keep_first s).find? (fun x => decide (tid x = some t)) = some r ∧
      r ∈ fragGroup t rows ∧ maxInGroup t rows r = true := by
  have hex : ∃ x, x ∈ rows ∧ decide (tid x = some t) = true := by
    have hlen : 0 < (fragGroup t rows).length := Nat.lt_of_le_of_lt (Nat.zero_le 1) h
    obtain ⟨x, hx⟩ := List.exists_mem_of_ne_nil _ (List.length_pos.mp hlen)
    simp only [fragGroup, List.mem_filter] at hx
    exact ⟨x, hx.1, hx.2⟩
  obtain ⟨b, hb, hbmem, hpb, hAb⟩ := find?_sorted_desc_max rows s _ hs.1 hs.2 hex
  refine ⟨b, ?_, ?_, ?_⟩
  · rw [drop_duplicates_find?_tid]
    exact hb
  · simp only [fragGroup, List.mem_filter]
    exact ⟨hbmem, hpb⟩
  · simp only [maxInGroup, fragGroup]
    exact hAb

/-- Witness for C1 amended at the fragment counts 3, 7, 2 of the claim:
the kept fragment is in the group and is tied to the maximal count 7. -/
theorem add_site_id_max_count_any_sort_witness :
    sortValuesOutput exFragments exFragmentsSorted ∧
    1 < (fragGroup 1 exFragments).length ∧
    ∃ r, (drop_duplicates_keep_first exFragmentsSorted).find?
        (fun x => decide (tid x = some 1)) = some r ∧
      r ∈ fragGroup 1 exFragments ∧ maxInGroup 1 exFragments r = true :=
  ⟨⟨by decide, by decide⟩, by decide,
   add_site_id_max_count_any_sort exFragments exFragmentsSorted 1
     ⟨by decide, by decide⟩ (by decide)⟩
